import Mathlib

/-!
Verification of the Agentic-RAG repository's core components against its
specification, via a shallow embedding of the Python source in Lean 4.

Embedded modules:
* `src/vector_store/faiss_store.py` — the FAISS-backed vector store
  (`FAISSStore`): construction, `count`, `add`, `search`, `save`/`load`.
  Float vectors are modelled over `ℚ` (exact arithmetic); the FAISS
  `IndexFlatL2` index is modelled as the list of stored vectors with exact
  brute-force squared-L2 search, distance-ascending with a deterministic
  tie-break (the spec leaves tie order to the index, demanding only
  determinism and distance ordering).
* `src/agents/tool_executor.py` — numeric operations on a data frame
  (`compute_average`, `compute_sum`, `compute_growth_rate`, `execute`).
  A pandas DataFrame is modelled as named columns of `Option ℚ` cells
  (`none` = null/NaN); Python's `round(x, 4)` is modelled as exact
  half-to-even decimal rounding at 4 places.
* `src/ingestion/chunker.py` — sentence-aware chunking
  (`_split_sentences`, `_estimate_tokens`, `chunk_text`, `_build_chunk`).
  The regex `(?<=[.!?])\s+` split is modelled by an explicit character
  scanner with the same semantics (split at maximal whitespace runs
  preceded by a sentence-ending character); whitespace is modelled as the
  ASCII whitespace characters.
-/

namespace AgenticRAG

/-! ## Data model for stored payloads

A chunk dict is a Python dict; the store only reads the keys `"text"` and
`"metadata"` via `chunk.get`, defaulting to `""` / `{}`. Metadata values in
this codebase are ints or strings (`chunk_index`, `source`,
`estimated_tokens`), so a metadata mapping is a list of key/value pairs. -/

/-- A metadata value: an integer or a string. -/
inductive MValue where
  | i : Int → MValue
  | s : String → MValue
deriving DecidableEq, Repr

/-- A payload (chunk dict) as the store sees it: both keys optional,
read via `dict.get` with defaults. -/
structure Payload where
  text? : Option String
  metadata? : Option (List (String × MValue))
deriving DecidableEq, Repr

instance : Inhabited Payload := ⟨⟨none, none⟩⟩

/-- A search result entry: the dict
`{"text": ..., "metadata": ..., "score": ...}` built by `FAISSStore.search`. -/
structure SearchMatch where
  text : String
  metadata : List (String × MValue)
  score : ℚ
deriving DecidableEq, Repr

/-- Equality of fallible results is decidable (used to evaluate the
embedded operations on concrete inputs). -/
instance {e a : Type} [DecidableEq e] [DecidableEq a] : DecidableEq (Except e a) :=
  fun x y =>
    match x, y with
    | Except.error u, Except.error v =>
      if h : u = v then isTrue (congrArg Except.error h)
      else isFalse (fun hh => h (Except.error.inj hh))
    | Except.error _, Except.ok _ => isFalse (fun hh => Except.noConfusion hh)
    | Except.ok _, Except.error _ => isFalse (fun hh => Except.noConfusion hh)
    | Except.ok u, Except.ok v =>
      if h : u = v then isTrue (congrArg Except.ok h)
      else isFalse (fun hh => h (Except.ok.inj hh))

/-- Squared L2 distance between two vectors, the metric of
`faiss.IndexFlatL2`. -/
def l2sq (q v : List ℚ) : ℚ :=
  ((List.zipWith (fun a b => a - b) q v).map (fun x => x * x)).sum

/-- The vector store of `faiss_store.py`: a fixed dimension, the FAISS
index (modelled as the list of stored vectors, in insertion order), and
the parallel list of chunk dicts. -/
structure FAISSStore where
  dimension : Nat
  index : List (List ℚ)
  chunks : List Payload
deriving DecidableEq, Repr

namespace FAISSStore

/-- `FAISSStore.__init__`: empty index of the given dimension, empty
chunk list. -/
def new (dimension : Nat) : FAISSStore :=
  { dimension := dimension, index := [], chunks := [] }

/-- `FAISSStore.count`: returns `self.index.ntotal`, the number of stored
vectors. -/
def count (s : FAISSStore) : Nat := s.index.length

/-- `FAISSStore.add` as a state transformer. The result pairs the store
state after the call with `some errorMessage` when the call raises.

Source order: (1) `embeddings.shape[0] != len(chunks)` raises `ValueError`
before any mutation; (2) `self.index.add(embeddings)` — FAISS validates
the embedding width against the index dimension and raises before
mutating when it differs; (3) `self.chunks.extend(chunks)`. A raise in
step 1 or 2 therefore leaves the store exactly as it was. -/
def addOp (s : FAISSStore) (embeddings : List (List ℚ)) (chunks : List Payload) :
    FAISSStore × Option String :=
  if embeddings.length ≠ chunks.length then
    (s, some "Mismatch: embeddings vs chunks.")
  else if embeddings.any (fun v => v.length ≠ s.dimension) then
    (s, some "assert d == self.d")
  else
    ({ s with index := s.index ++ embeddings, chunks := s.chunks ++ chunks }, none)

/-- Comparator used to model the order in which `faiss.IndexFlatL2.search`
returns neighbors: ascending distance, ties broken deterministically by
insertion index (the spec fixes only the distance ordering and
determinism). Operates on `(insertion index, distance)` pairs. -/
def searchCmp (a b : Nat × ℚ) : Bool :=
  decide (a.2 < b.2 ∨ (a.2 = b.2 ∧ a.1 ≤ b.1))

/-- `FAISSStore.search`: empty list on an empty store; otherwise clamps
`top_k` to `min top_k ntotal`, ranks all stored vectors by squared L2
distance to the query, and builds a result dict per neighbor from the
positionally-aligned chunk, with `chunk.get("text", "")` and
`chunk.get("metadata", {})` defaults. The `idx == -1` sentinel skip in the
source is unreachable here because `k ≤ ntotal` on an intact index (the
spec confines the sentinel to corrupted-index states). -/
def search (s : FAISSStore) (query : List ℚ) (top_k : Nat) : List SearchMatch :=
  if s.index.length = 0 then []
  else
    let k := min top_k s.index.length
    let scored := (List.range s.index.length).map
      (fun i => (i, l2sq query (s.index.getD i [])))
    let sorted := scored.mergeSort searchCmp
    (sorted.take k).map (fun p =>
      let chunk := s.chunks.getD p.1 default
      { text := chunk.text?.getD ""
        metadata := chunk.metadata?.getD []
        score := p.2 })

/-- `FAISSStore.search` as a state transformer: the method body only reads
`self` (no field of `self` is assigned), so the state after the call is
the state before it. -/
def searchOp (s : FAISSStore) (query : List ℚ) (top_k : Nat) :
    List SearchMatch × FAISSStore :=
  (s.search query top_k, s)

/-- `FAISSStore.count` as a state transformer: a pure read of
`self.index.ntotal`. -/
def countOp (s : FAISSStore) : Nat × FAISSStore :=
  (s.count, s)

/-- The two artifacts `save` writes under the directory: `index.faiss`
(the serialized index, i.e. the stored vectors) and `chunks.json` (the
payload list). FAISS index serialization and JSON round-trip the data
losslessly. -/
structure SavedStore where
  indexFile : List (List ℚ)
  chunksFile : List Payload
deriving DecidableEq, Repr

/-- `FAISSStore.save`: writes `index.faiss` and `chunks.json`. -/
def save (s : FAISSStore) : SavedStore :=
  { indexFile := s.index, chunksFile := s.chunks }

/-- `FAISSStore.load`: builds a fresh store with the caller-supplied
dimension, then replaces its index and chunk list with the persisted
artifacts. -/
def load (a : SavedStore) (dimension : Nat) : FAISSStore :=
  let store := new dimension
  { store with index := a.indexFile, chunks := a.chunksFile }

/-- Stores reachable from a freshly constructed store by successful `add`
calls. -/
inductive Reachable : FAISSStore → Prop
  | new (d : Nat) : Reachable (FAISSStore.new d)
  | add (s s' : FAISSStore) (es : List (List ℚ)) (cs : List Payload) :
      Reachable s → s.addOp es cs = (s', none) → Reachable s'

end FAISSStore

/-! ## Chunker (`src/ingestion/chunker.py`) -/

/-- `DEFAULT_CHUNK_SIZE = 400`. -/
def DEFAULT_CHUNK_SIZE : Nat := 400

/-- `APPROX_CHARS_PER_TOKEN = 4`. -/
def APPROX_CHARS_PER_TOKEN : Nat := 4

/-- Whitespace as matched by Python's `\s` and stripped by `str.strip`
(ASCII fragment). -/
def isSpace (c : Char) : Bool :=
  c = ' ' || c = '\t' || c = '\n' || c = '\r' || c = '\x0b' || c = '\x0c'

/-- Sentence-ending characters of the chunker's split regex `[.!?]`. -/
def isEnder (c : Char) : Bool :=
  c = '.' || c = '!' || c = '?'

/-- Scanner realizing `re.split(r"(?<=[.!?])\s+", text)`: the text is cut
at every maximal whitespace run whose preceding character is `.`, `!` or
`?`. State: `some cur` = accumulating a piece (reversed); `none` = inside
the whitespace run of a match (the piece before it already emitted); the
`Bool` records whether the previous character was a sentence ender (the
lookbehind; `false` at position 0 and never consulted in the gap state). -/
def sentScan : List Char → Bool → Option (List Char) → List (List Char)
  | [], _, some cur => [cur.reverse]
  | [], _, none => [[]]
  | c :: rest, prevEnd, some cur =>
    if prevEnd && isSpace c then cur.reverse :: sentScan rest false none
    else sentScan rest (isEnder c) (some (c :: cur))
  | c :: rest, _, none =>
    if isSpace c then sentScan rest false none
    else sentScan rest (isEnder c) (some [c])

/-- Python `str.strip()` on a character list: drop leading and trailing
whitespace. -/
def pyStrip (s : List Char) : List Char :=
  ((s.dropWhile isSpace).reverse.dropWhile isSpace).reverse

/-- `_split_sentences`: regex split, then strip each piece and keep the
non-empty ones. -/
def _split_sentences (text : String) : List String :=
  ((sentScan text.data false (some [])).map (fun cs => String.mk (pyStrip cs))).filter
    (fun s => s ≠ "")

/-- `_estimate_tokens`: `len(text) // APPROX_CHARS_PER_TOKEN`. -/
def _estimate_tokens (text : String) : Nat :=
  text.length / APPROX_CHARS_PER_TOKEN

/-- The metadata dict built by `_build_chunk`: fixed keys `chunk_index`,
`source`, `estimated_tokens`. -/
structure ChunkMeta where
  chunk_index : Nat
  source : String
  estimated_tokens : Nat
deriving DecidableEq, Repr

/-- A chunk record `{"text": ..., "metadata": {...}}`. -/
structure Chunk where
  text : String
  metadata : ChunkMeta
deriving DecidableEq, Repr

/-- `_build_chunk`: join the sentences with single spaces and attach
metadata. -/
def _build_chunk (sentences : List String) (index : Nat) (source : String) : Chunk :=
  let text := " ".intercalate sentences
  { text := text
    metadata :=
      { chunk_index := index
        source := source
        estimated_tokens := _estimate_tokens text } }

/-- The `if current_sentences:` flush that recurs in `chunk_text`: emit
the accumulated sentences as one more chunk when there are any. -/
def flushChunk (chunks : List Chunk) (current : List String) (source : String) :
    List Chunk :=
  if current = [] then chunks
  else chunks ++ [_build_chunk current chunks.length source]

/-- The sentence loop of `chunk_text`, with the loop state explicit:
`chunks` (emitted so far), `current` (`current_sentences`), and
`current_tokens`. Mirrors the source statement for statement: an
oversized sentence flushes `current` then becomes its own chunk; a
sentence that would overflow a non-empty `current` flushes it first;
otherwise the sentence is appended to `current`. The trailing flush
handles the leftover sentences. -/
def chunkLoop (chunk_size : Nat) (source : String) :
    List String → List Chunk → List String → Nat → List Chunk
  | [], chunks, current, _ => flushChunk chunks current source
  | sentence :: rest, chunks, current, current_tokens =>
    if chunk_size ≤ _estimate_tokens sentence then
      chunkLoop chunk_size source rest
        (flushChunk chunks current source ++
          [_build_chunk [sentence] (flushChunk chunks current source).length source])
        [] 0
    else if chunk_size < current_tokens + _estimate_tokens sentence ∧ current ≠ [] then
      chunkLoop chunk_size source rest
        (chunks ++ [_build_chunk current chunks.length source]) [sentence]
        (_estimate_tokens sentence)
    else
      chunkLoop chunk_size source rest chunks (current ++ [sentence])
        (current_tokens + _estimate_tokens sentence)

/-- The flush of `flushChunk`, at the level of sentence groups. -/
def flushGroup (current : List String) : List (List String) :=
  if current = [] then [] else [current]

/-- The grouping performed by the `chunk_text` loop, without the chunk
records: which consecutive sentences end up in which chunk. -/
def groupLoop (chunk_size : Nat) :
    List String → List String → Nat → List (List String)
  | [], current, _ => flushGroup current
  | sentence :: rest, current, current_tokens =>
    if chunk_size ≤ _estimate_tokens sentence then
      flushGroup current ++ [[sentence]] ++ groupLoop chunk_size rest [] 0
    else if chunk_size < current_tokens + _estimate_tokens sentence ∧ current ≠ [] then
      current :: groupLoop chunk_size rest [sentence] (_estimate_tokens sentence)
    else
      groupLoop chunk_size rest (current ++ [sentence])
        (current_tokens + _estimate_tokens sentence)

/-- `chunk_text`: split into sentences, then run the accumulation loop
with empty initial state. -/
def chunk_text (text : String) (chunk_size : Nat := DEFAULT_CHUNK_SIZE)
    (source : String := "") : List Chunk :=
  chunkLoop chunk_size source (_split_sentences text) [] [] 0

/-! ## Numeric tool executor (`src/agents/tool_executor.py`) -/

/-- A pandas DataFrame, restricted to what the tool executor reads: named
columns of numeric cells, `none` standing for a null/NaN cell. -/
structure DataFrame where
  cols : List (String × List (Option ℚ))
deriving DecidableEq, Repr

/-- `df[column]` guarded by `column not in df.columns`: the first column
with the given name, if any. -/
def DataFrame.getCol (df : DataFrame) (column : String) : Option (List (Option ℚ)) :=
  (df.cols.find? (fun p => p.1 == column)).map Prod.snd

/-- Python's `round(x, 4)` idealized over `ℚ`: round to the nearest
multiple of `1/10000`, ties to the even multiple (half-to-even, Python's
rounding mode). -/
def roundHalfEven (x : ℚ) : ℤ :=
  if x - ⌊x⌋ < 1/2 then ⌊x⌋
  else if (1 : ℚ)/2 < x - ⌊x⌋ then ⌊x⌋ + 1
  else if ⌊x⌋ % 2 = 0 then ⌊x⌋ else ⌊x⌋ + 1

/-- `round(x, 4)`. -/
def round4 (x : ℚ) : ℚ :=
  (roundHalfEven (x * 10000) : ℚ) / 10000

/-- The structured result dicts returned by the tool functions:
`compute_average`/`compute_sum` return
`{"operation": ..., "column": ..., "result": ...}`;
`compute_growth_rate` returns
`{"operation": "growth_rate", "column": ..., "first": ..., "last": ...,
"result_pct": ...}`. -/
inductive ToolResult where
  | aggregate (operation : String) (column : String) (result : ℚ)
  | growth (column : String) (first last result_pct : ℚ)
deriving DecidableEq, Repr

/-- `compute_average`: mean of the column's non-null values, rounded to 4
places. (pandas `mean` skips nulls; the all-null column, whose mean is
NaN in pandas, is outside this rational model and outside every claim.) -/
def compute_average (df : DataFrame) (column : String) : Except String ToolResult :=
  match df.getCol column with
  | none => Except.error ("Column " ++ column ++ " not found.")
  | some col =>
    let series := col.filterMap id
    Except.ok (ToolResult.aggregate "average" column
      (round4 (series.sum / (series.length : ℚ))))

/-- `compute_sum`: sum of the column's non-null values, rounded to 4
places. -/
def compute_sum (df : DataFrame) (column : String) : Except String ToolResult :=
  match df.getCol column with
  | none => Except.error ("Column " ++ column ++ " not found.")
  | some col =>
    let series := col.filterMap id
    Except.ok (ToolResult.aggregate "sum" column (round4 series.sum))

/-- `compute_growth_rate`: on the column's non-null values in order,
`((last - first) / first) * 100`, each reported number rounded to 4
places; errors when the column is missing, has fewer than 2 non-null
values, or its first non-null value is 0. -/
def compute_growth_rate (df : DataFrame) (column : String) : Except String ToolResult :=
  match df.getCol column with
  | none => Except.error ("Column " ++ column ++ " not found.")
  | some col =>
    let series := col.filterMap id
    if series.length < 2 then
      Except.error ("Need at least 2 non-null values to compute growth rate in "
        ++ column ++ ".")
    else
      let first := series.getD 0 0
      let last := series.getLastD 0
      if first = 0 then
        Except.error ("First value in " ++ column ++ " is 0; cannot compute growth rate.")
      else
        Except.ok (ToolResult.growth column (round4 first) (round4 last)
          (round4 (((last - first) / first) * 100)))

/-- `execute`: dispatch on the operation name over the `ops` table
`{"average", "sum", "growth_rate"}`; unknown names are rejected. -/
def execute (df : DataFrame) (operation : String) (column : String) :
    Except String ToolResult :=
  if operation = "average" then compute_average df column
  else if operation = "sum" then compute_sum df column
  else if operation = "growth_rate" then compute_growth_rate df column
  else Except.error ("Unsupported operation: " ++ operation ++ ".")

/-! ## Store lemmas -/

namespace FAISSStore

/-- A successful `add` call appends the embeddings to the index and the
chunks to the payload list, and requires equal batch lengths. -/
theorem addOp_ok {s s' : FAISSStore} {es : List (List ℚ)} {cs : List Payload}
    (h : s.addOp es cs = (s', none)) :
    es.length = cs.length ∧ s'.dimension = s.dimension ∧
    s'.index = s.index ++ es ∧ s'.chunks = s.chunks ++ cs := by
  unfold addOp at h
  split at h
  · exact absurd (congrArg Prod.snd h) (by simp)
  · split at h
    · exact absurd (congrArg Prod.snd h) (by simp)
    · rename_i hlen _
      injection h with h1 _
      subst h1
      exact ⟨by omega, rfl, rfl, rfl⟩

/-- `search` always returns `min top_k count` results. -/
theorem length_search (s : FAISSStore) (q : List ℚ) (k : Nat) :
    (s.search q k).length = min k s.count := by
  unfold search count
  split
  · rename_i h; rw [h]; simp
  · simp only [List.length_map, List.length_take, List.length_mergeSort,
      List.length_range]
    omega

end FAISSStore

/-! ## Claim theorems for the vector store -/

/-- C2: an `add` call whose batch lengths differ or one of whose vectors
has a length other than the store dimension fails with an error raised
before any mutation, leaving the store — in particular `count()` and the
payload list — exactly as it was (all-or-nothing). -/
theorem add_shape_mismatch_rejected (s : FAISSStore) (es : List (List ℚ))
    (cs : List Payload)
    (h : es.length ≠ cs.length ∨ ∃ v ∈ es, v.length ≠ s.dimension) :
    (∃ e, (s.addOp es cs).2 = some e) ∧ (s.addOp es cs).1 = s ∧
    (s.addOp es cs).1.count = s.count ∧ (s.addOp es cs).1.chunks = s.chunks := by
  have hmain : (s.addOp es cs).1 = s ∧ ∃ e, (s.addOp es cs).2 = some e := by
    unfold FAISSStore.addOp
    rcases h with h | h
    · simp [h]
    · by_cases hlen : es.length ≠ cs.length
      · simp [hlen]
      · have h' : ∃ x ∈ es, ¬x.length = s.dimension := by simpa using h
        simp [hlen, h']
  exact ⟨hmain.2, hmain.1, by rw [hmain.1], by rw [hmain.1]⟩

/-- C2 witness: a mismatched `add` (one embedding, no payload) on a fresh
2-dimensional store errors and leaves the store unchanged. -/
theorem add_shape_mismatch_rejected_witness :
    (([[(1 : ℚ), 2]] : List (List ℚ)).length ≠ ([] : List Payload).length ∨
      ∃ v ∈ ([[(1 : ℚ), 2]] : List (List ℚ)), v.length ≠ (FAISSStore.new 2).dimension) ∧
    ((∃ e, ((FAISSStore.new 2).addOp [[(1 : ℚ), 2]] []).2 = some e) ∧
      ((FAISSStore.new 2).addOp [[(1 : ℚ), 2]] []).1 = FAISSStore.new 2 ∧
      ((FAISSStore.new 2).addOp [[(1 : ℚ), 2]] []).1.count = (FAISSStore.new 2).count ∧
      ((FAISSStore.new 2).addOp [[(1 : ℚ), 2]] []).1.chunks = (FAISSStore.new 2).chunks) :=
  ⟨Or.inl (by decide),
   add_shape_mismatch_rejected (FAISSStore.new 2) [[(1 : ℚ), 2]] [] (Or.inl (by decide))⟩

/-- C1: along every sequence of successful `add` calls from a fresh
store, the payload list and the vector index stay positionally aligned:
the number of stored payloads equals the number of indexed vectors, and a
further successful `add` extends the (vector, payload) pairing by exactly
the added pairs, in order — so position `i` always carries the payload
that was added together with the vector at position `i`. -/
theorem store_alignment_invariant (s : FAISSStore) (h : FAISSStore.Reachable s) :
    s.chunks.length = s.index.length ∧
    ∀ es cs s', s.addOp es cs = (s', none) →
      s'.index.zip s'.chunks = s.index.zip s.chunks ++ es.zip cs := by
  have step : ∀ t t' : FAISSStore, ∀ es cs, t.chunks.length = t.index.length →
      t.addOp es cs = (t', none) →
      t'.chunks.length = t'.index.length ∧
      t'.index.zip t'.chunks = t.index.zip t.chunks ++ es.zip cs := by
    intro t t' es cs hlen hadd
    obtain ⟨hbatch, -, hidx, hch⟩ := FAISSStore.addOp_ok hadd
    refine ⟨by simp [hidx, hch, hlen, hbatch], ?_⟩
    rw [hidx, hch, List.zip_append hlen.symm]
  induction h with
  | new d => exact ⟨rfl, fun es cs s' hadd => (step _ _ es cs rfl hadd).2⟩
  | add t t' es cs _ hadd ih =>
    have ht' := step t t' es cs ih.1 hadd
    exact ⟨ht'.1, fun es' cs' s'' hadd' => (step t' s'' es' cs' ht'.1 hadd').2⟩

/-- C1 witness: the invariant instantiated at a fresh 2-dimensional
store, with one concrete successful `add` extending the empty pairing. -/
theorem store_alignment_invariant_witness :
    FAISSStore.Reachable (FAISSStore.new 2) ∧
    ((FAISSStore.new 2).chunks.length = (FAISSStore.new 2).index.length ∧
      ∀ es cs s', (FAISSStore.new 2).addOp es cs = (s', none) →
        s'.index.zip s'.chunks =
          (FAISSStore.new 2).index.zip (FAISSStore.new 2).chunks ++ es.zip cs) :=
  ⟨FAISSStore.Reachable.new 2,
   store_alignment_invariant (FAISSStore.new 2) (FAISSStore.Reachable.new 2)⟩

/-- The neighbor comparator is transitive. -/
theorem searchCmp_trans (a b c : Nat × ℚ) (h1 : FAISSStore.searchCmp a b)
    (h2 : FAISSStore.searchCmp b c) : FAISSStore.searchCmp a c := by
  simp only [FAISSStore.searchCmp, decide_eq_true_eq] at *
  rcases h1 with h1 | ⟨h1e, h1i⟩ <;> rcases h2 with h2 | ⟨h2e, h2i⟩
  · exact Or.inl (lt_trans h1 h2)
  · exact Or.inl (h2e ▸ h1)
  · exact Or.inl (h1e ▸ h2)
  · exact Or.inr ⟨h1e.trans h2e, le_trans h1i h2i⟩

/-- The neighbor comparator is total. -/
theorem searchCmp_total (a b : Nat × ℚ) :
    FAISSStore.searchCmp a b || FAISSStore.searchCmp b a := by
  simp only [FAISSStore.searchCmp, Bool.or_eq_true, decide_eq_true_eq]
  rcases lt_trichotomy a.2 b.2 with h | h | h
  · exact Or.inl (Or.inl h)
  · rcases Nat.le_total a.1 b.1 with hi | hi
    · exact Or.inl (Or.inr ⟨h, hi⟩)
    · exact Or.inr (Or.inr ⟨h.symm, hi⟩)
  · exact Or.inr (Or.inl h)

/-- C3: on a non-empty aligned store and a query of the store dimension,
`search` returns matches in non-decreasing order of score, and each
match's `score` is the raw squared L2 distance from the query to the
stored vector at some position `i`, whose positionally-aligned payload
supplies `text` (defaulting to `""`) and `metadata` (defaulting to the
empty mapping). -/
theorem search_sorted_and_scores (s : FAISSStore) (q : List ℚ) (k : Nat)
    (_halign : s.chunks.length = s.index.length) (hne : 0 < s.count)
    (_hq : q.length = s.dimension) :
    (s.search q k).Pairwise (fun a b => a.score ≤ b.score) ∧
    ∀ m ∈ s.search q k, ∃ i, i < s.count ∧
      m.score = l2sq q (s.index.getD i []) ∧
      m.text = (s.chunks.getD i default).text?.getD "" ∧
      m.metadata = (s.chunks.getD i default).metadata?.getD [] := by
  have hne' : ¬ s.index.length = 0 := by
    unfold FAISSStore.count at hne; omega
  constructor
  · unfold FAISSStore.search
    rw [if_neg hne']
    refine List.pairwise_map.mpr ?_
    refine List.Pairwise.imp ?_
      (((List.sorted_mergeSort searchCmp_trans searchCmp_total _)).sublist
        (List.take_sublist _ _))
    intro a b hab
    simp only [FAISSStore.searchCmp, decide_eq_true_eq] at hab
    rcases hab with hab | ⟨hab, -⟩
    · exact le_of_lt hab
    · exact le_of_eq hab
  · intro m hm
    unfold FAISSStore.search at hm
    rw [if_neg hne'] at hm
    obtain ⟨p, hp, rfl⟩ := List.mem_map.mp hm
    have hp2 := List.mem_mergeSort.mp (List.take_subset _ _ hp)
    obtain ⟨i, hi, rfl⟩ := List.mem_map.mp hp2
    rw [List.mem_range] at hi
    exact ⟨i, hi, rfl, rfl, rfl⟩

/-- C3 witness: the two-vector scenario store (`[0,0]` ↦ "near",
`[10,10]` ↦ "far") queried at `[1,1]`. -/
theorem search_sorted_and_scores_witness :
    ((FAISSStore.mk 2 [[0, 0], [10, 10]]
        [⟨some "near", none⟩, ⟨some "far", some []⟩]).chunks.length =
      (FAISSStore.mk 2 [[0, 0], [10, 10]]
        [⟨some "near", none⟩, ⟨some "far", some []⟩]).index.length) ∧
    0 < (FAISSStore.mk 2 [[0, 0], [10, 10]]
        [⟨some "near", none⟩, ⟨some "far", some []⟩]).count ∧
    ([(1 : ℚ), 1].length = (FAISSStore.mk 2 [[0, 0], [10, 10]]
        [⟨some "near", none⟩, ⟨some "far", some []⟩]).dimension) ∧
    (((FAISSStore.mk 2 [[0, 0], [10, 10]]
        [⟨some "near", none⟩, ⟨some "far", some []⟩]).search [1, 1] 5).Pairwise
      (fun a b => a.score ≤ b.score) ∧
    ∀ m ∈ (FAISSStore.mk 2 [[0, 0], [10, 10]]
        [⟨some "near", none⟩, ⟨some "far", some []⟩]).search [1, 1] 5,
      ∃ i, i < (FAISSStore.mk 2 [[0, 0], [10, 10]]
          [⟨some "near", none⟩, ⟨some "far", some []⟩]).count ∧
        m.score = l2sq [1, 1] ((FAISSStore.mk 2 [[0, 0], [10, 10]]
          [⟨some "near", none⟩, ⟨some "far", some []⟩]).index.getD i []) ∧
        m.text = (((FAISSStore.mk 2 [[0, 0], [10, 10]]
          [⟨some "near", none⟩, ⟨some "far", some []⟩]).chunks.getD i
            default).text?.getD "") ∧
        m.metadata = (((FAISSStore.mk 2 [[0, 0], [10, 10]]
          [⟨some "near", none⟩, ⟨some "far", some []⟩]).chunks.getD i
            default).metadata?.getD [])) :=
  ⟨rfl, by decide, rfl,
   search_sorted_and_scores
     (FAISSStore.mk 2 [[0, 0], [10, 10]] [⟨some "near", none⟩, ⟨some "far", some []⟩])
     [1, 1] 5 rfl (by decide) rfl⟩

/-- C4: `search` returns exactly `min top_k count` results and is total:
on an empty store it returns the empty list whatever `top_k` is, and when
`top_k` exceeds `count` it returns exactly `count` results. -/
theorem search_result_count (s : FAISSStore) (q : List ℚ) (top_k : Nat) :
    (s.search q top_k).length = min top_k s.count ∧
    (s.count = 0 → s.search q top_k = []) ∧
    (s.count < top_k → (s.search q top_k).length = s.count) := by
  refine ⟨s.length_search q top_k, ?_, ?_⟩
  · intro h
    unfold FAISSStore.search
    have h0 : s.index.length = 0 := h
    simp [h0]
  · intro h
    have := s.length_search q top_k
    omega

/-- C4 witness: on an empty 2-dimensional store `search` with `top_k = 5`
returns `[]`, and on a two-entry store it returns `count = 2` results. -/
theorem search_result_count_witness :
    (FAISSStore.new 2).count = 0 ∧
    (FAISSStore.new 2).search [1, 1] 5 = [] ∧
    (FAISSStore.mk 2 [[0, 0], [10, 10]]
      [⟨some "near", none⟩, ⟨some "far", some []⟩]).count < 5 ∧
    ((FAISSStore.mk 2 [[0, 0], [10, 10]]
      [⟨some "near", none⟩, ⟨some "far", some []⟩]).search [1, 1] 5).length =
      (FAISSStore.mk 2 [[0, 0], [10, 10]]
        [⟨some "near", none⟩, ⟨some "far", some []⟩]).count :=
  ⟨rfl,
   (search_result_count (FAISSStore.new 2) [1, 1] 5).2.1 rfl,
   by decide,
   (search_result_count (FAISSStore.mk 2 [[0, 0], [10, 10]]
      [⟨some "near", none⟩, ⟨some "far", some []⟩]) [1, 1] 5).2.2 (by decide)⟩

/-- C5: a fresh store has `count() = 0`, and a successful `add` of `n`
vector/payload pairs increases `count()` by exactly `n`. -/
theorem count_zero_and_add_increments (d : Nat) (s s' : FAISSStore)
    (es : List (List ℚ)) (cs : List Payload) (h : s.addOp es cs = (s', none)) :
    (FAISSStore.new d).count = 0 ∧ s'.count = s.count + es.length := by
  obtain ⟨-, -, hidx, -⟩ := FAISSStore.addOp_ok h
  exact ⟨rfl, by simp [FAISSStore.count, hidx]⟩

/-- C5 witness: adding one pair to a fresh 2-dimensional store takes
`count()` from 0 to 1. -/
theorem count_zero_and_add_increments_witness :
    (FAISSStore.new 2).addOp [[(1 : ℚ), 2]] [⟨some "a", none⟩] =
      (FAISSStore.mk 2 [[(1 : ℚ), 2]] [⟨some "a", none⟩], none) ∧
    (FAISSStore.new 2).count = 0 ∧
    (FAISSStore.mk 2 [[(1 : ℚ), 2]] [⟨some "a", none⟩]).count =
      (FAISSStore.new 2).count + [[(1 : ℚ), 2]].length :=
  ⟨by decide,
   count_zero_and_add_increments 2 (FAISSStore.new 2)
     (FAISSStore.mk 2 [[(1 : ℚ), 2]] [⟨some "a", none⟩])
     [[(1 : ℚ), 2]] [⟨some "a", none⟩] (by decide)⟩

/-- C6: `save` followed by `load` at the same dimension reconstructs an
equivalent store: the loaded store equals the original, so `count()`
matches and `search` returns identical results (text, metadata and score)
for every query and `top_k`. -/
theorem save_load_roundtrip (s : FAISSStore) :
    FAISSStore.load s.save s.dimension = s ∧
    (FAISSStore.load s.save s.dimension).count = s.count ∧
    ∀ q k, (FAISSStore.load s.save s.dimension).search q k = s.search q k :=
  ⟨rfl, rfl, fun _ _ => rfl⟩

/-- C7: `search` and `count` are pure reads: the store state after either
call — dimension, indexed vectors and payload list included — is exactly
the state before it, and each returns the value of the corresponding pure
function; only `add` changes the state. -/
theorem search_count_pure (s : FAISSStore) (q : List ℚ) (k : Nat) :
    (s.searchOp q k).2 = s ∧ (s.searchOp q k).2.dimension = s.dimension ∧
    (s.searchOp q k).2.index = s.index ∧ (s.searchOp q k).2.chunks = s.chunks ∧
    s.countOp.2 = s ∧ (s.searchOp q k).1 = s.search q k ∧ s.countOp.1 = s.count :=
  ⟨rfl, rfl, rfl, rfl, rfl, rfl, rfl⟩

/-! ## Chunker lemmas -/

/-- Sentence-ending characters are not whitespace. -/
theorem isEnder_eq_false_of_isSpace (c : Char) (h : isSpace c = true) :
    isEnder c = false := by
  simp only [isSpace, Bool.or_eq_true, decide_eq_true_eq] at h
  rcases h with ((((rfl | rfl) | rfl) | rfl) | rfl) | rfl <;> decide

/-- On all-whitespace input the sentence scanner never finds a split
point: its lookbehind flag stays false, so the whole text is one piece. -/
theorem sentScan_all_space :
    ∀ (cs cur : List Char), (∀ c ∈ cs, isSpace c = true) →
      sentScan cs false (some cur) = [cur.reverse ++ cs] := by
  intro cs
  induction cs with
  | nil => intro cur _; simp [sentScan]
  | cons c rest ih =>
    intro cur h
    have hc : isSpace c = true := h c (by simp)
    have hrest : ∀ x ∈ rest, isSpace x = true := fun x hx => h x (by simp [hx])
    simp only [sentScan, Bool.false_and, Bool.false_eq_true, if_false,
      isEnder_eq_false_of_isSpace c hc, ih _ hrest]
    simp

/-- A piece of all-whitespace characters strips to nothing. -/
theorem pyStrip_all_space (cs : List Char) (h : ∀ c ∈ cs, isSpace c = true) :
    pyStrip cs = [] := by
  unfold pyStrip
  rw [List.dropWhile_eq_nil_iff.mpr h]
  rfl

/-- An all-whitespace (or empty) text has no sentences. -/
theorem split_sentences_all_space (text : String)
    (h : text.data.all isSpace = true) : _split_sentences text = [] := by
  unfold _split_sentences
  rw [sentScan_all_space text.data [] (by simpa [List.all_eq_true] using h)]
  have hs : pyStrip text.data = [] :=
    pyStrip_all_space _ (by simpa [List.all_eq_true] using h)
  simp [hs]

/-- The sentence groups produced by the chunking loop concatenate back to
the input sentence list (prefixed by the pending group): no sentence is
dropped, duplicated, split or reordered. -/
theorem groupLoop_flatten (size : Nat) :
    ∀ (ss cur : List String) (tok : Nat),
      (groupLoop size ss cur tok).flatten = cur ++ ss := by
  intro ss
  induction ss with
  | nil =>
    intro cur tok
    unfold groupLoop flushGroup
    rcases eq_or_ne cur [] with rfl | hc
    · simp
    · simp [hc]
  | cons s rest ih =>
    intro cur tok
    unfold groupLoop flushGroup
    split_ifs with h1 hc h2 <;> simp_all [ih]

/-- Every group emitted by the chunking loop is non-empty. -/
theorem groupLoop_ne_nil (size : Nat) :
    ∀ (ss cur : List String) (tok : Nat),
      ∀ g ∈ groupLoop size ss cur tok, g ≠ [] := by
  intro ss
  induction ss with
  | nil =>
    intro cur tok g hg
    unfold groupLoop flushGroup at hg
    rcases eq_or_ne cur [] with rfl | hc
    · simp at hg
    · rw [if_neg hc] at hg
      simp at hg
      simpa [hg] using hc
  | cons s rest ih =>
    intro cur tok g hg
    unfold groupLoop flushGroup at hg
    split_ifs at hg with h1 hc h2
    · simp at hg
      rcases hg with rfl | hg
      · simp
      · exact ih _ _ g hg
    · simp at hg
      rcases hg with rfl | rfl | hg
      · exact hc
      · simp
      · exact ih _ _ g hg
    · simp at hg
      rcases hg with rfl | hg
      · exact h2.2
      · exact ih _ _ g hg
    · exact ih _ _ g hg

/-- `flushChunk` is `flushGroup` followed by chunk-record construction at
the next free index. -/
theorem flushChunk_eq (chunks : List Chunk) (cur : List String) (src : String) :
    flushChunk chunks cur src =
      chunks ++ ((flushGroup cur).enumFrom chunks.length).map
        (fun p => _build_chunk p.2 p.1 src) := by
  unfold flushChunk flushGroup
  rcases eq_or_ne cur [] with rfl | hc
  · simp
  · simp [hc, List.enumFrom]

/-- Length bookkeeping for the flush. -/
theorem length_flushChunk (chunks : List Chunk) (cur : List String) (src : String) :
    (flushChunk chunks cur src).length = chunks.length + (flushGroup cur).length := by
  unfold flushChunk flushGroup
  rcases eq_or_ne cur [] with rfl | hc
  · simp
  · simp [hc]

/-- The chunking loop emits exactly one chunk record per sentence group,
in order, indexed by its final position. -/
theorem chunkLoop_eq_groupLoop (size : Nat) (src : String) :
    ∀ (ss : List String) (acc : List Chunk) (cur : List String) (tok : Nat),
      chunkLoop size src ss acc cur tok =
        acc ++ ((groupLoop size ss cur tok).enumFrom acc.length).map
          (fun p => _build_chunk p.2 p.1 src) := by
  intro ss
  induction ss with
  | nil =>
    intro acc cur tok
    unfold chunkLoop groupLoop
    exact flushChunk_eq acc cur src
  | cons s rest ih =>
    intro acc cur tok
    unfold chunkLoop groupLoop
    split_ifs with h1 h2
    · rw [ih, flushChunk_eq]
      simp [List.enumFrom_append, List.enumFrom, List.length_append,
        List.append_assoc, Nat.add_assoc]
    · rw [ih]
      simp [List.enumFrom_append, List.enumFrom, List.length_append,
        List.append_assoc, Nat.add_assoc]
    · exact ih _ _ _


/-! ## Claim theorems for the chunker -/

/-- C9: `chunk_text` produces an ordered sequence of chunk records of the
shape `{text, metadata:{chunk_index, source, estimated_tokens}}` — each
record is `_build_chunk` applied to a group of sentences at its position
— and the groups partition the sentence list into consecutive non-empty
runs, so no sentence is ever split across two chunks (even an oversized
sentence is emitted whole as its own chunk). -/
theorem chunk_text_sentence_partition (text : String) (chunk_size : Nat)
    (source : String) :
    ∃ groups : List (List String),
      groups.flatten = _split_sentences text ∧
      (∀ g ∈ groups, g ≠ []) ∧
      chunk_text text chunk_size source =
        groups.enum.map (fun p => _build_chunk p.2 p.1 source) := by
  refine ⟨groupLoop chunk_size (_split_sentences text) [] 0, ?_, ?_, ?_⟩
  · simpa using groupLoop_flatten chunk_size (_split_sentences text) [] 0
  · exact groupLoop_ne_nil chunk_size (_split_sentences text) [] 0
  · unfold chunk_text
    rw [chunkLoop_eq_groupLoop]
    simp [List.enum]

/-- C10: the `i`-th chunk returned by `chunk_text` carries
`chunk_index = i` (indices are consecutive from 0, matching list
position), and an all-whitespace or empty text yields no chunks. -/
theorem chunk_index_positional (text : String) (chunk_size : Nat) (source : String) :
    (∀ (i : Nat) (c : Chunk), (chunk_text text chunk_size source)[i]? = some c →
      c.metadata.chunk_index = i) ∧
    (text.data.all isSpace = true → chunk_text text chunk_size source = []) := by
  constructor
  · intro i c hc
    unfold chunk_text at hc
    rw [chunkLoop_eq_groupLoop] at hc
    simp only [List.nil_append, List.length_nil] at hc
    rw [List.getElem?_map] at hc
    rcases hg : (List.enumFrom 0 (groupLoop chunk_size (_split_sentences text) [] 0))[i]?
      with - | p
    · rw [hg] at hc; simp at hc
    · rw [hg] at hc
      have hp := List.getElem?_enumFrom 0 (groupLoop chunk_size (_split_sentences text) [] 0) i
      rw [hg] at hp
      rcases hg2 : (groupLoop chunk_size (_split_sentences text) [] 0)[i]? with - | g
      · rw [hg2] at hp; simp at hp
      · rw [hg2] at hp
        simp at hp
        subst hp
        simp at hc
        rw [← hc]
        simp [_build_chunk]
  · intro h
    unfold chunk_text
    rw [split_sentences_all_space text h]
    rfl

/-- C10 witness: `"Hi. Bye."` at chunk size 1 yields two chunks; the one
in position 1 has `chunk_index = 1`; `"  "` yields no chunks. -/
theorem chunk_index_positional_witness :
    (chunk_text "Hi. Bye." 1 "s")[1]? =
      some ⟨"Bye.", ⟨1, "s", 1⟩⟩ ∧
    (⟨"Bye.", ⟨1, "s", 1⟩⟩ : Chunk).metadata.chunk_index = 1 ∧
    ("  ".data.all isSpace = true) ∧ chunk_text "  " 1 "s" = [] :=
  ⟨by decide, (chunk_index_positional "Hi. Bye." 1 "s").1 1 ⟨"Bye.", ⟨1, "s", 1⟩⟩
      (by decide),
   by decide, (chunk_index_positional "  " 1 "s").2 (by decide)⟩

/-! ## Claim theorems for the numeric tool executor -/

/-- Evaluation rule for `compute_growth_rate` on a missing column. -/
theorem compute_growth_rate_none (df : DataFrame) (column : String)
    (h : df.getCol column = none) :
    compute_growth_rate df column =
      Except.error ("Column " ++ column ++ " not found.") := by
  simp only [compute_growth_rate, h]

/-- Evaluation rule for `compute_growth_rate` on a present column. -/
theorem compute_growth_rate_some (df : DataFrame) (column : String)
    (col : List (Option ℚ)) (h : df.getCol column = some col) :
    compute_growth_rate df column =
      (if (col.filterMap id).length < 2 then
        Except.error ("Need at least 2 non-null values to compute growth rate in "
          ++ column ++ ".")
      else if (col.filterMap id).getD 0 0 = 0 then
        Except.error ("First value in " ++ column ++
          " is 0; cannot compute growth rate.")
      else
        Except.ok (ToolResult.growth column (round4 ((col.filterMap id).getD 0 0))
          (round4 ((col.filterMap id).getLastD 0))
          (round4 (((col.filterMap id).getLastD 0 - (col.filterMap id).getD 0 0) /
            (col.filterMap id).getD 0 0 * 100)))) := by
  simp only [compute_growth_rate, h]

/-- C8 counterexample: on column `[3, 4]` the growth-rate operation
returns `result_pct = 33.3333` (the 4-decimal rounding applied by the
code), which differs from the exact formula value
`((last - first) / first) * 100 = 100/3`. -/
theorem growth_rate_exact_formula_counterexample :
    execute (DataFrame.mk [("c", [some 3, some 4])]) "growth_rate" "c" =
      Except.ok (ToolResult.growth "c" 3 4 (333333 / 10000)) ∧
    (333333 : ℚ) / 10000 ≠ (((4 : ℚ) - 3) / 3) * 100 := by
  constructor
  · have hexec : execute (DataFrame.mk [("c", [some 3, some 4])]) "growth_rate" "c" =
        compute_growth_rate (DataFrame.mk [("c", [some 3, some 4])]) "c" := by
      simp [execute]
    have hcol : (DataFrame.mk [("c", [some 3, some 4])]).getCol "c" =
        some [some 3, some 4] := rfl
    rw [hexec, compute_growth_rate_some _ _ _ hcol]
    have hfm : ([some (3 : ℚ), some 4].filterMap id) = [3, 4] := rfl
    rw [hfm]
    norm_num [round4, roundHalfEven]
  · norm_num

/-- C8 (amended): the growth-rate operation reads the column's non-null
values in order and returns `((last - first) / first) * 100` rounded
half-to-even to 4 decimal places (with `first`/`last` also reported
rounded), and it fails if and only if the column is absent, has fewer
than 2 non-null values, or has first non-null value zero. -/
theorem growth_rate_spec (df : DataFrame) (column : String) :
    (∀ r, execute df "growth_rate" column = Except.ok r →
      ∃ col, df.getCol column = some col ∧
        2 ≤ (col.filterMap id).length ∧
        (col.filterMap id).getD 0 0 ≠ 0 ∧
        r = ToolResult.growth column
          (round4 ((col.filterMap id).getD 0 0))
          (round4 ((col.filterMap id).getLastD 0))
          (round4 (((col.filterMap id).getLastD 0 - (col.filterMap id).getD 0 0) /
            (col.filterMap id).getD 0 0 * 100))) ∧
    ((∃ e, execute df "growth_rate" column = Except.error e) ↔
      df.getCol column = none ∨
      ∃ col, df.getCol column = some col ∧
        ((col.filterMap id).length < 2 ∨ (col.filterMap id).getD 0 0 = 0)) := by
  have hex : execute df "growth_rate" column = compute_growth_rate df column := by
    simp [execute]
  have hnone : df.getCol column = none →
      compute_growth_rate df column =
        Except.error ("Column " ++ column ++ " not found.") := by
    intro h; simp only [compute_growth_rate, h]
  have hsome : ∀ col, df.getCol column = some col →
      compute_growth_rate df column =
        (if (col.filterMap id).length < 2 then
          Except.error ("Need at least 2 non-null values to compute growth rate in "
            ++ column ++ ".")
        else if (col.filterMap id).getD 0 0 = 0 then
          Except.error ("First value in " ++ column ++
            " is 0; cannot compute growth rate.")
        else
          Except.ok (ToolResult.growth column (round4 ((col.filterMap id).getD 0 0))
            (round4 ((col.filterMap id).getLastD 0))
            (round4 (((col.filterMap id).getLastD 0 - (col.filterMap id).getD 0 0) /
              (col.filterMap id).getD 0 0 * 100)))) := by
    intro col h; simp only [compute_growth_rate, h]
  constructor
  · intro r hr
    rw [hex] at hr
    rcases hcol : df.getCol column with - | col
    · rw [hnone hcol] at hr
      exact Except.noConfusion hr
    · rw [hsome col hcol] at hr
      split_ifs at hr with hlen hfirst
      injection hr with hr
      exact ⟨col, rfl, by omega, hfirst, hr.symm⟩
  · constructor
    · rintro ⟨e, he⟩
      rw [hex] at he
      rcases hcol : df.getCol column with - | col
      · exact Or.inl rfl
      · rw [hsome col hcol] at he
        split_ifs at he with hlen hfirst
        · exact Or.inr ⟨col, rfl, Or.inl hlen⟩
        · exact Or.inr ⟨col, rfl, Or.inr hfirst⟩
    · intro h
      rw [hex]
      rcases hcol : df.getCol column with - | col
      · rw [hnone hcol]
        exact ⟨_, rfl⟩
      · rw [hsome col hcol]
        rcases h with h | ⟨col', hcol', h⟩
        · rw [hcol] at h
          exact Option.noConfusion h
        · rw [hcol] at hcol'
          injection hcol' with hcol'
          subst hcol'
          rcases h with h | h
          · rw [if_pos h]
            exact ⟨_, rfl⟩
          · by_cases hlen : (col.filterMap id).length < 2
            · rw [if_pos hlen]
              exact ⟨_, rfl⟩
            · rw [if_neg hlen, if_pos h]
              exact ⟨_, rfl⟩

/-- C8 witness: column `[100, 150]` succeeds with `result_pct = 50`, and
column `[0, 150]` fails (zero baseline). -/
theorem growth_rate_spec_witness :
    execute (DataFrame.mk [("c", [some 100, some 150])]) "growth_rate" "c" =
      Except.ok (ToolResult.growth "c" 100 150 50) ∧
    (∃ col, (DataFrame.mk [("c", [some 100, some 150])]).getCol "c" = some col ∧
      2 ≤ (col.filterMap id).length ∧
      (col.filterMap id).getD 0 0 ≠ 0 ∧
      ToolResult.growth "c" 100 150 50 = ToolResult.growth "c"
        (round4 ((col.filterMap id).getD 0 0))
        (round4 ((col.filterMap id).getLastD 0))
        (round4 (((col.filterMap id).getLastD 0 - (col.filterMap id).getD 0 0) /
          (col.filterMap id).getD 0 0 * 100))) ∧
    (∃ e, execute (DataFrame.mk [("c", [some 0, some 150])]) "growth_rate" "c" =
      Except.error e) := by
  have hok : execute (DataFrame.mk [("c", [some 100, some 150])]) "growth_rate" "c" =
      Except.ok (ToolResult.growth "c" 100 150 50) := by
    have hexec : execute (DataFrame.mk [("c", [some 100, some 150])]) "growth_rate" "c" =
        compute_growth_rate (DataFrame.mk [("c", [some 100, some 150])]) "c" := by
      simp [execute]
    have hcol : (DataFrame.mk [("c", [some 100, some 150])]).getCol "c" =
        some [some 100, some 150] := rfl
    rw [hexec, compute_growth_rate_some _ _ _ hcol]
    have hfm : ([some (100 : ℚ), some 150].filterMap id) = [100, 150] := rfl
    rw [hfm]
    norm_num [round4, roundHalfEven]
  refine ⟨hok,
    (growth_rate_spec (DataFrame.mk [("c", [some 100, some 150])]) "c").1
      (ToolResult.growth "c" 100 150 50) hok,
    ((growth_rate_spec (DataFrame.mk [("c", [some 0, some 150])]) "c").2).mpr
      (Or.inr ⟨[some 0, some 150], by decide, Or.inr (by decide)⟩)⟩

end AgenticRAG
